import Mathlib

/-!
Verification of the `WebStandardTransport` HTTP/JSON-RPC transport, the
`withMcpAuth` middleware and the tool-result helpers of the
`mcp-tanstack-start` repository, against its natural-language specification.

The definitions below are a shallow embedding of `src/web-transport.ts`
(the `WebStandardTransport` class and the auth middleware) and
`src/tool.ts`.  JavaScript strings are modelled by Lean `String`, with the
character-level helpers below standing in for `String.prototype.split`,
`trim`, `toLowerCase`, `includes` and `startsWith`; `JSON.parse` results
are modelled by the `Json` inductive; `Map`s are modelled by association
lists whose insertion function mirrors `Map.set` (in-place update of an
existing key, append otherwise), so that iteration order matches.
-/

/-! ## Character-level string helpers (JS string primitives) -/

/-- Whitespace recognised by `String.prototype.trim` (the characters that
actually occur in the headers this code handles). -/
def wsChar (c : Char) : Bool :=
  c = ' ' || c = '\t' || c = '\n' || c = '\r'

/-- Drop leading whitespace from a character list. -/
def dropWs (cs : List Char) : List Char :=
  cs.dropWhile wsChar

/-- JS `trim`: remove whitespace from both ends. -/
def trimChars (cs : List Char) : List Char :=
  (dropWs ((dropWs cs.reverse).reverse))

/-- JS `s.trim()` on a Lean string. -/
def trimStr (s : String) : String :=
  ⟨trimChars s.data⟩

/-- JS `s.split(sep)` for a one-character separator. -/
def charSplit (sep : Char) : List Char → List (List Char)
  | [] => [[]]
  | c :: rest =>
    match charSplit sep rest with
    | [] => if c = sep then [[], []] else [[c]]
    | h :: t => if c = sep then [] :: h :: t else (c :: h) :: t

/-- Does `cs` start with `pat`? (JS `startsWith`.) -/
def listStarts : List Char → List Char → Bool
  | _, [] => true
  | [], _ :: _ => false
  | a :: as, b :: bs => a = b && listStarts as bs

/-- Does `hay` contain `pat` as a contiguous substring? (JS `includes`.) -/
def containsSub : List Char → List Char → Bool
  | [], pat => pat.isEmpty
  | h :: t, pat => listStarts (h :: t) pat || containsSub t pat

/-- JS `s.includes(pat)` on Lean strings. -/
def strContains (s pat : String) : Bool :=
  containsSub s.data pat.data

/-- JS `s.toLowerCase()` (ASCII, which is all the headers use). -/
def lowerStr (s : String) : String :=
  ⟨s.data.map Char.toLower⟩

/-- JS `s.startsWith(pat)` on Lean strings. -/
def strStarts (s pat : String) : Bool :=
  listStarts s.data pat.data

/-- JS `s.slice(n)` (drop the first `n` characters). -/
def strDrop (s : String) (n : Nat) : String :=
  ⟨s.data.drop n⟩

/-- JS `Array.prototype.join(", ")`. -/
def joinComma : List String → String
  | [] => ""
  | [x] => x
  | x :: xs => x ++ ", " ++ joinComma xs

/-- Leading decimal digits of a character list, if any (helper for
`parseInt`). -/
def digitsVal (cs : List Char) : Option Nat :=
  let ds := cs.takeWhile Char.isDigit
  if ds.isEmpty then none
  else some (ds.foldl (fun a c => a * 10 + (c.toNat - 48)) 0)

/-- JS `parseInt(s, 10)`: skip leading whitespace, optional sign, then
leading digits; `none` models `NaN`. -/
def parseIntJS (s : String) : Option Int :=
  match dropWs s.data with
  | '-' :: rest => (digitsVal rest).map (fun n => -(n : Int))
  | '+' :: rest => (digitsVal rest).map (fun n => (n : Int))
  | cs => (digitsVal cs).map (fun n => (n : Int))

/-! ## JSON values and JSON-RPC messages -/

/-- Result of `JSON.parse`. -/
inductive Json where
  | null : Json
  | bool (b : Bool) : Json
  | num (n : Int) : Json
  | str (s : String) : Json
  | arr (xs : List Json) : Json
  | obj (fields : List (String × Json)) : Json

/-- A JSON-RPC id (`string | number` in the SDK types). -/
inductive RequestId where
  | str (s : String) : RequestId
  | num (n : Int) : RequestId
deriving DecidableEq

/-- A parsed JSON-RPC message, the tagged union produced by the MCP SDK's
`JSONRPCMessageSchema` (request / notification / response / error). -/
inductive JSONRPCMessage where
  | request (id : RequestId) (method : String) (params : Option Json)
  | notification (method : String) (params : Option Json)
  | response (id : RequestId) (result : Json)
  | error (id : RequestId) (code : Int) (message : String)

/-- Object field lookup (first match, as in JS objects with unique keys). -/
def jGet (fields : List (String × Json)) (k : String) : Option Json :=
  fields.lookup k

/-- A JSON value that is a valid JSON-RPC id. -/
def jsonToId : Json → Option RequestId
  | .str s => some (.str s)
  | .num n => some (.num n)
  | _ => none

/-- Embed a `RequestId` back into JSON. -/
def idToJson : RequestId → Json
  | .str s => .str s
  | .num n => .num n

/-- Modelled from the MCP SDK's `JSONRPCMessageSchema` (an external
dependency of the repository, described by the spec as a validator
"producing a tagged union {Request, Response, Error, Notification}"):
a message must carry `jsonrpc: "2.0"`; one with a `method` is a request
when it has an id and a notification otherwise; otherwise a `result`
with an id is a response and an `error` object with an id is an error. -/
def parseMessage (j : Json) : Option JSONRPCMessage :=
  match j with
  | .obj fs =>
    match jGet fs "jsonrpc" with
    | some (.str v) =>
      if v = "2.0" then
        match jGet fs "method" with
        | some (.str m) =>
          match jGet fs "id" with
          | some idj =>
            match jsonToId idj with
            | some rid => some (.request rid m (jGet fs "params"))
            | none => none
          | none => some (.notification m (jGet fs "params"))
        | _ =>
          match jGet fs "id", jGet fs "result", jGet fs "error" with
          | some idj, some res, _ =>
            (jsonToId idj).map (fun rid => .response rid res)
          | some idj, none, some (.obj efs) =>
            match jGet efs "code", jGet efs "message" with
            | some (.num c), some (.str msg) =>
              (jsonToId idj).map (fun rid => .error rid c msg)
            | _, _ => none
          | _, _, _ => none
      else none
    | _ => none
  | _ => none

/-- SDK `isJSONRPCRequest`. -/
def isJSONRPCRequest : JSONRPCMessage → Bool
  | .request .. => true
  | _ => false

/-- SDK `isInitializeRequest` (a request whose method is the
protocol-initialisation method; the SDK additionally validates the params
shape, which none of the verified properties depend on). -/
def isInitializeRequest : JSONRPCMessage → Bool
  | .request _ m _ => m = "initialize"
  | _ => false

/-- The id of a request message, if it is one. -/
def requestIdOpt : JSONRPCMessage → Option RequestId
  | .request rid _ _ => some rid
  | _ => none

/-- The id carried by a response or error message (the messages `send`
correlates with pending requests). -/
def responseIdOpt : JSONRPCMessage → Option RequestId
  | .response rid _ => some rid
  | .error rid _ _ => some rid
  | _ => none

/-! ## HTTP model -/

/-- Incoming HTTP request as the transport reads it: the headers it
inspects (each `none` when the header is absent), plus the body, split
into the length of the body text and the result of `JSON.parse` on it
(`none` when parsing throws). -/
structure HttpRequest where
  method : String
  accept : Option String
  contentType : Option String
  contentLength : Option String
  protocolVersion : Option String
  origin : Option String
  bodyLen : Nat
  bodyJson : Option Json

/-- Body of an outgoing response. -/
inductive ResponseBody where
  /-- `null` body (202 Accepted / 204). -/
  | empty
  /-- `{jsonrpc:"2.0", error:{code, message}, id}` with `none` = `null` id. -/
  | errorBody (code : Int) (message : String) (id : Option RequestId)
  /-- A JSON body of one message (singleton list) or an array of them. -/
  | jsonMessages (ms : List JSONRPCMessage)
  /-- SSE-framed `event: message` events, one per message. -/
  | sseEvents (ms : List JSONRPCMessage)
  /-- An open SSE `ReadableStream` (GET endpoint). -/
  | sseStream

/-- Outgoing HTTP response: status and the headers the transport sets. -/
structure McpResponse where
  status : Nat
  contentType : Option String := some "application/json"
  allow : Option String := none
  wwwAuthenticate : Option String := none
  body : ResponseBody

/-- A JSON-RPC error response with `id: null`, the shape used for every
transport-level failure. -/
def errResp (status : Nat) (code : Int) (message : String) : McpResponse :=
  { status := status, body := .errorBody code message none }

/-- The `202 Accepted` empty response for notification-only posts. -/
def accepted202 : McpResponse :=
  { status := 202, contentType := none, body := .empty }

/-! ## Transport state -/

/-- `PendingBatch` from `web-transport.ts`: a batch of requests waiting
for responses.  `requestIds` is the JS `Set` (insertion order, unique),
`responses` the JS `Map` keyed by request id; the JS `timeoutId` is
modelled by the explicit `Op.timeout` event below. -/
structure PendingBatch where
  requestIds : List RequestId
  responses : List (RequestId × JSONRPCMessage)
  expectedCount : Nat
  resolved : Bool
deriving Inhabited

/-- The mutable state of a `WebStandardTransport` instance, with the
constructor options inlined. -/
structure TransportState where
  enableJsonResponse : Bool
  maxBodySize : Nat
  maxBatchSize : Nat
  requestTimeout : Nat
  initializing : Bool
  initialized : Bool
  sseStreamActive : Bool
  pendingBatches : List (String × PendingBatch)
  requestToBatch : List (RequestId × String)

/-- Transport state produced by `new WebStandardTransport({})`: all
option defaults, nothing initialised, no pending work. -/
def defaultTransportState : TransportState :=
  { enableJsonResponse := false
    maxBodySize := 1048576
    maxBatchSize := 100
    requestTimeout := 30000
    initializing := false
    initialized := false
    sseStreamActive := false
    pendingBatches := []
    requestToBatch := [] }

/-- JS `Map.set`: replace the value of an existing key in place, else
append the new binding at the end (preserving iteration order). -/
def alSet {α β : Type} [DecidableEq α] (l : List (α × β)) (k : α) (v : β) :
    List (α × β) :=
  if (l.lookup k).isSome then
    l.map (fun p => if p.1 = k then (k, v) else p)
  else
    l ++ [(k, v)]

/-- Association-list lookup with propositional keys (wrapper around
`List.lookup` for `DecidableEq` keys). -/
def alGet {α β : Type} [DecidableEq α] (l : List (α × β)) (k : α) :
    Option β :=
  l.lookup k

/-- The ids of the currently pending batches, in map order. -/
def batchIds (s : TransportState) : List String :=
  s.pendingBatches.map Prod.fst

/-- JS `new Set(xs)` as an insertion-ordered deduplicated list. -/
def dedup (xs : List RequestId) : List RequestId :=
  xs.foldl (fun acc x => if x ∈ acc then acc else acc ++ [x]) []

/-! ## Header parsing -/

/-- `acceptsMediaType` from `web-transport.ts`: split the Accept header on
commas, strip any `;q=...` parameters, and accept the media type when some
part equals it, equals the full wildcard, or equals its type with a `/*`
subtype wildcard. -/
def acceptsMediaType (acceptHeader mediaType : String) : Bool :=
  let parts := (charSplit ',' acceptHeader.data).map
    (fun p => trimChars ((charSplit ';' (trimChars p)).headD []))
  let mt := mediaType.data
  let mainWild := ((charSplit '/' mt).headD []) ++ ('/' :: '*' :: [])
  parts.any (fun p => p = mt || p = ('*' :: '/' :: '*' :: []) || p = mainWild)

/-- The Content-Length guard of `handlePostRequest`:
`contentLength && parseInt(contentLength, 10) > maxBodySize` with JS
truthiness (absent or empty header is skipped, `NaN` compares false). -/
def clTooLarge (cl : Option String) (maxBodySize : Nat) : Bool :=
  match cl with
  | some s => !(s = "") && (match parseIntJS s with
      | some n => (maxBodySize : Int) < n
      | none => false)
  | none => false

/-- Supported protocol versions, modelled from the MCP SDK's
`SUPPORTED_PROTOCOL_VERSIONS` constant (an external dependency). -/
def SUPPORTED_PROTOCOL_VERSIONS : List String :=
  ["2025-06-18", "2025-03-26", "2024-11-05", "2024-10-07"]

/-- The protocol-version guard for non-initialisation posts:
`protocolVersion && !SUPPORTED_PROTOCOL_VERSIONS.includes(protocolVersion)`
with JS truthiness. -/
def badProtocolVersion (pv : Option String) : Bool :=
  match pv with
  | some v => !(v = "") && !(SUPPORTED_PROTOCOL_VERSIONS.contains v)
  | none => false

/-- Length of a JSON array, 0 for non-arrays (the batch-size guard only
fires on arrays). -/
def jsonBatchLen : Json → Nat
  | .arr xs => xs.length
  | _ => 0

/-- The message list extracted from a parsed body: every array element
must satisfy the JSON-RPC schema, a non-array body is wrapped into a
one-element list. -/
def parseMessages (raw : Json) : Option (List JSONRPCMessage) :=
  match raw with
  | .arr xs => xs.mapM parseMessage
  | v => (parseMessage v).map (fun m => [m])

/-! ## Request handling -/

/-- Outcome of `handlePostRequest`: either an immediate `Response`, or the
promise of a response correlated to the pending batch registered under
the given batch id. -/
inductive PostOutcome where
  | response (r : McpResponse)
  | pending (batchId : String)

/-- Result of handling one request: the next transport state, the
outcome, and the messages dispatched to `onmessage` (in order). -/
structure HandleResult where
  state : TransportState
  outcome : PostOutcome
  dispatched : List JSONRPCMessage

/-- The HTTP status of an outcome (`none` for a still-pending promise). -/
def postStatus : PostOutcome → Option Nat
  | .response r => some r.status
  | .pending _ => none

/-- `handleGetRequest`: open the SSE notification stream.  Requires
`Accept: text/event-stream` (else 406) and at most one live stream
(else 409). -/
def handleGetRequest (s : TransportState) (req : HttpRequest) :
    TransportState × McpResponse :=
  let acceptHeader := req.accept.getD ""
  if !(acceptsMediaType acceptHeader "text/event-stream") then
    (s, errResp 406 (-32000)
      "Not Acceptable: Client must accept text/event-stream")
  else if s.sseStreamActive then
    (s, errResp 409 (-32000)
      "Conflict: Only one SSE stream is allowed per session")
  else
    ({ s with sseStreamActive := true },
      { status := 200, contentType := some "text/event-stream",
        body := .sseStream })

/-- `handlePostRequest` from `web-transport.ts` (the transport state
threaded explicitly; the fresh batch id, produced in the source from
`Date.now()` and `Math.random()`, is passed in as `batchId`). -/
def handlePostRequest (s : TransportState) (req : HttpRequest)
    (batchId : String) : HandleResult :=
  let acceptHeader := req.accept.getD ""
  let acceptsJson := acceptsMediaType acceptHeader "application/json"
  let acceptsSse := acceptsMediaType acceptHeader "text/event-stream"
  if !acceptsJson && !acceptsSse then
    ⟨s, .response (errResp 406 (-32000)
      "Not Acceptable: Client must accept application/json or text/event-stream"),
      []⟩
  else
  let contentType := req.contentType.getD ""
  if !(strContains (lowerStr contentType) "application/json") then
    ⟨s, .response (errResp 415 (-32000)
      "Unsupported Media Type: Content-Type must be application/json"), []⟩
  else
  if clTooLarge req.contentLength s.maxBodySize then
    ⟨s, .response (errResp 413 (-32000)
      ("Payload Too Large: Maximum body size is " ++ toString s.maxBodySize
        ++ " bytes")), []⟩
  else
  if s.maxBodySize < req.bodyLen then
    ⟨s, .response (errResp 413 (-32000)
      ("Payload Too Large: Maximum body size is " ++ toString s.maxBodySize
        ++ " bytes")), []⟩
  else
  match req.bodyJson with
  | none =>
    ⟨s, .response (errResp 400 (-32700) "Parse error: Invalid JSON"), []⟩
  | some raw =>
  if s.maxBatchSize < jsonBatchLen raw then
    ⟨s, .response (errResp 400 (-32000)
      ("Batch Too Large: Maximum " ++ toString s.maxBatchSize
        ++ " messages per batch")), []⟩
  else
  match parseMessages raw with
  | none =>
    ⟨s, .response (errResp 400 (-32600)
      "Invalid Request: Not a valid JSON-RPC message"), []⟩
  | some messages =>
  let isInitPost := messages.any isInitializeRequest
  if isInitPost && decide (1 < messages.length) then
    ⟨s, .response (errResp 400 (-32600)
      "Invalid Request: Only one initialization request is allowed"), []⟩
  else
  if isInitPost && (s.initialized || s.initializing) then
    ⟨s, .response (errResp 400 (-32600)
      "Invalid Request: Server already initialized"), []⟩
  else
  let s1 := if isInitPost then { s with initializing := true } else s
  if !isInitPost && badProtocolVersion req.protocolVersion then
    ⟨s1, .response (errResp 400 (-32000)
      ("Bad Request: Unsupported protocol version (supported: "
        ++ joinComma SUPPORTED_PROTOCOL_VERSIONS ++ ")")), []⟩
  else
  let reqIds := messages.filterMap requestIdOpt
  if reqIds.isEmpty then
    -- Only notifications: dispatch them and reply 202 Accepted.
    let s2 := if isInitPost then
      { s1 with initialized := true, initializing := false } else s1
    ⟨s2, .response accepted202, messages⟩
  else
    -- Register a pending batch, dispatch, then settle the init flags.
    let requestIds := dedup reqIds
    let batch : PendingBatch :=
      { requestIds := requestIds, responses := [],
        expectedCount := reqIds.length, resolved := false }
    let s2 := { s1 with
      pendingBatches := alSet s1.pendingBatches batchId batch,
      requestToBatch :=
        requestIds.foldl (fun m rid => alSet m rid batchId) s1.requestToBatch }
    let s3 := if isInitPost then
      { s2 with initialized := true, initializing := false } else s2
    ⟨s3, .pending batchId, messages⟩

/-- `handleRequest`: dispatch on the HTTP method.  GET opens the SSE
stream, POST submits JSON-RPC, anything else is answered
`405` with `Allow: GET, POST`. -/
def handleRequest (s : TransportState) (req : HttpRequest)
    (batchId : String) : HandleResult :=
  if req.method = "GET" then
    ⟨(handleGetRequest s req).1, .response (handleGetRequest s req).2, []⟩
  else if req.method = "POST" then
    handlePostRequest s req batchId
  else
    ⟨s, .response
      { status := 405, allow := some "GET, POST",
        body := .errorBody (-32000) "Method not allowed. Use GET or POST." none },
      []⟩

/-! ## Response correlation: `send`, timeouts, `close` -/

/-- The resolutions emitted by a transport operation: each pending batch
that gets resolved appears once, paired with the HTTP response its
awaiting promise receives. -/
abbrev Resolutions := List (String × McpResponse)

/-- The ordered response list `resolveBatch` assembles: the received
responses in original request order, skipping missing ones. -/
def orderedResponses (batch : PendingBatch) : List JSONRPCMessage :=
  batch.requestIds.filterMap (fun rid => alGet batch.responses rid)

/-- `resolveBatch`: resolve a pending batch with all its responses, as a
JSON body or SSE events depending on `enableJsonResponse`; the batch and
its request-id mappings are removed from the maps. -/
def resolveBatch (s : TransportState) (batchId : String)
    (batch : PendingBatch) : TransportState × Resolutions :=
  if batch.resolved then (s, [])
  else
    let s' := { s with
      requestToBatch :=
        s.requestToBatch.filter (fun p => !(batch.requestIds.contains p.1)),
      pendingBatches := s.pendingBatches.filter (fun p => !(p.1 = batchId)) }
    let resp :=
      if s.enableJsonResponse then
        { status := 200, contentType := some "application/json",
          body := .jsonMessages (orderedResponses batch) : McpResponse }
      else
        { status := 200, contentType := some "text/event-stream",
          body := .sseEvents (orderedResponses batch) : McpResponse }
    (s', [(batchId, resp)])

/-- `send`: a response or error from the handler is routed to its pending
batch (resolving the batch once all expected responses are in); a
notification goes out on the SSE stream and leaves the pending-request
bookkeeping untouched. -/
def sendMsg (s : TransportState) (message : JSONRPCMessage) :
    TransportState × Resolutions :=
  match responseIdOpt message with
  | some requestId =>
    match alGet s.requestToBatch requestId with
    | some batchId =>
      match alGet s.pendingBatches batchId with
      | some batch =>
        if batch.resolved then (s, [])
        else
          let batch' := { batch with
            responses := alSet batch.responses requestId message }
          if batch.expectedCount ≤ batch'.responses.length then
            resolveBatch s batchId batch'
          else
            ({ s with pendingBatches := alSet s.pendingBatches batchId batch' },
              [])
      | none => (s, [])
    | none => (s, [])
  | none => (s, [])

/-- The synthetic error `resolveBatch`'s timeout sibling fills in for a
request that never got a response. -/
def timeoutError (rid : RequestId) : JSONRPCMessage :=
  .error rid (-32001) "Request timed out"

/-- The `setTimeout` callback armed for a pending batch: if the batch is
still unresolved, delete it and its mappings and resolve the awaiting
promise with a `408` JSON body holding the received responses and a
`-32001 "Request timed out"` error (with the original id) for each
missing one. -/
def timeoutFire (s : TransportState) (batchId : String) :
    TransportState × Resolutions :=
  match alGet s.pendingBatches batchId with
  | some batch =>
    if batch.resolved then (s, [])
    else
      let s' := { s with
        requestToBatch :=
          s.requestToBatch.filter (fun p => !(batch.requestIds.contains p.1)),
        pendingBatches := s.pendingBatches.filter (fun p => !(p.1 = batchId)) }
      let responses := batch.requestIds.map
        (fun rid => (alGet batch.responses rid).getD (timeoutError rid))
      (s', [(batchId,
        { status := 408, contentType := some "application/json",
          body := .jsonMessages responses })])
  | none => (s, [])

/-- `close`: shut the SSE stream, reject every unresolved pending batch
with a `500` `-32000 "Transport closed"` error, drop all request-id
mappings and clear the batch map. -/
def closeTransport (s : TransportState) : TransportState × Resolutions :=
  let evs : Resolutions := s.pendingBatches.filterMap
    (fun p => if p.2.resolved then none else
      some (p.1, errResp 500 (-32000) "Transport closed"))
  ({ s with
      sseStreamActive := false,
      pendingBatches := [],
      requestToBatch := s.requestToBatch.filter
        (fun q => !(s.pendingBatches.any
          (fun p => p.2.requestIds.contains q.1))) },
    evs)

/-- The asynchronous events that can act on the pending-request
bookkeeping once a batch is registered: a handler `send`, a request
timeout firing, and transport shutdown. -/
inductive Op where
  | send (m : JSONRPCMessage)
  | timeout (batchId : String)
  | close

/-- One step of the transport's event loop. -/
def stepOp (s : TransportState) : Op → TransportState × Resolutions
  | .send m => sendMsg s m
  | .timeout bid => timeoutFire s bid
  | .close => closeTransport s

/-- Run a sequence of events, collecting every emitted resolution. -/
def runOps (s : TransportState) : List Op → TransportState × Resolutions
  | [] => (s, [])
  | op :: rest =>
    ((runOps (stepOp s op).1 rest).1,
      (stepOp s op).2 ++ (runOps (stepOp s op).1 rest).2)

/-- How many resolutions a trace emitted for one batch id. -/
def emitCount (evs : Resolutions) (bid : String) : Nat :=
  (evs.filter (fun p => p.1 = bid)).length

/-! ## Auth middleware (`withMcpAuth`) -/

/-- Authentication information handed to the wrapped handler
(`AuthInfo` from `types.ts`; `claims` is modelled only as far as the
middleware needs it, namely the empty sentinel). -/
structure AuthInfo where
  token : String
  claims : List (String × String) := []
  scopes : Option (List String) := none
deriving DecidableEq

/-- Options accepted by `withMcpAuth`. -/
structure AuthMiddlewareOptions where
  realm : String := "MCP Server"
  requiredScopes : List String := []
  allowUnauthenticated : Bool := false

/-- What the `verifyToken` callback did: returned auth info, returned
`null`, or threw. -/
inductive VerifyOutcome where
  | ok (a : AuthInfo)
  | nullResult
  | thrown (msg : String)

/-- What the wrapper did with the request: answered it itself, or invoked
the wrapped handler with the given auth info. -/
inductive AuthOutcome where
  | response (r : McpResponse)
  | callHandler (a : AuthInfo)

/-- `createUnauthorizedResponse`: 401 with a `WWW-Authenticate` bearer
challenge and a `-32001` JSON-RPC error body. -/
def createUnauthorizedResponse (realm message : String) : McpResponse :=
  { status := 401,
    wwwAuthenticate := some ("Bearer realm=\"" ++ realm ++ "\""),
    body := .errorBody (-32001) ("Unauthorized: " ++ message) none }

/-- `createForbiddenResponse`: 403 with a `-32002` JSON-RPC error body. -/
def createForbiddenResponse (message : String) : McpResponse :=
  { status := 403,
    body := .errorBody (-32002) ("Forbidden: " ++ message) none }

/-- Bearer-token extraction inside the wrapper:
`authHeader?.startsWith("Bearer ") ? authHeader.slice(7).trim() : null`. -/
def extractToken (authHeader : Option String) : Option String :=
  match authHeader with
  | some h => if strStarts h "Bearer " then some (trimStr (strDrop h 7)) else none
  | none => none

/-- The request handler returned by `withMcpAuth`, as a function of the
`Authorization` header and of what `verifyToken` did.  The JS
`if (!token)` treats both a missing header and an empty extracted token
as "no token"; the later `token.length === 0` re-check is unreachable
and therefore has no branch here.  The wrapped handler itself runs after
the wrapper returns `callHandler` (a handler exception is also answered
401 in the source, outside the scope of the verified properties). -/
def withMcpAuthRun (opts : AuthMiddlewareOptions) (authHeader : Option String)
    (verify : VerifyOutcome) : AuthOutcome :=
  let noToken : AuthOutcome :=
    if opts.allowUnauthenticated then
      .callHandler { token := "", claims := [], scopes := some [] }
    else
      .response (createUnauthorizedResponse opts.realm
        "No authorization token provided")
  match extractToken authHeader with
  | none => noToken
  | some token =>
    if token = "" then noToken
    else
      match verify with
      | .thrown msg => .response (createUnauthorizedResponse opts.realm msg)
      | .nullResult =>
        .response (createUnauthorizedResponse opts.realm
          "Invalid or expired token")
      | .ok authInfo =>
        if 0 < opts.requiredScopes.length then
          let tokenScopes := authInfo.scopes.getD []
          if opts.requiredScopes.all (fun sc => tokenScopes.contains sc) then
            .callHandler authInfo
          else
            .response (createForbiddenResponse
              ("Insufficient scopes. Required: "
                ++ joinComma opts.requiredScopes))
        else
          .callHandler authInfo

/-! ## Tool helpers (`tool.ts`) -/

/-- Content items a tool can return (`ToolContent` from `types.ts`). -/
inductive ToolContent where
  | text (text : String)
  | image (data : String) (mimeType : String)
  | resource (uri : String) (mimeType : Option String)
      (text : Option String) (blob : Option String)
deriving DecidableEq

/-- `ToolResult` from `types.ts` (`isError` is an optional field). -/
structure ToolResult where
  content : List ToolContent
  isError : Option Bool := none
deriving DecidableEq

/-- The union `string | ToolContent[] | ToolResult` accepted by
`normalizeToolResult`. -/
inductive ToolResultInput where
  | str (s : String)
  | contents (cs : List ToolContent)
  | result (r : ToolResult)
deriving DecidableEq

/-- `normalizeToolResult` from `tool.ts`: wrap a string into one text
content item, wrap a content array into a result, pass a result through. -/
def normalizeToolResult : ToolResultInput → ToolResult
  | .str s => { content := [.text s] }
  | .contents cs => { content := cs }
  | .result r => r

/-! ## Concrete fixtures used by the claim theorems -/

/-- A well-formed POST request carrying the standard headers (both media
types accepted, JSON content type, no Content-Length, no protocol-version
header, no Origin) and the given parsed body of the given text length. -/
def mkPostReq (body : Option Json) (len : Nat) : HttpRequest :=
  { method := "POST", accept := some "application/json, text/event-stream",
    contentType := some "application/json", contentLength := none,
    protocolVersion := none, origin := none, bodyLen := len,
    bodyJson := body }

/-- The JSON of a `ping` request with a numeric id. -/
def pingJson (n : Int) : Json :=
  .obj [("jsonrpc", .str "2.0"), ("id", .num n), ("method", .str "ping")]

/-- The JSON of a protocol-initialisation request with the given id. -/
def initReqJson (rid : RequestId) : Json :=
  .obj [("jsonrpc", .str "2.0"), ("id", idToJson rid),
        ("method", .str "initialize"), ("params", .obj [])]

/-- The JSON of the client's initialisation-complete notification. -/
def initializedNotifJson : Json :=
  .obj [("jsonrpc", .str "2.0"), ("method", .str "notifications/initialized")]

/-- A DELETE request (no body, no headers of note). -/
def deleteReq : HttpRequest :=
  { method := "DELETE", accept := none, contentType := none,
    contentLength := none, protocolVersion := none, origin := none,
    bodyLen := 0, bodyJson := none }

/-- Parsing the initialisation-request JSON yields the single
`initialize` request. -/
theorem parseMessages_initReqJson (rid : RequestId) :
    parseMessages (initReqJson rid) =
      some [.request rid "initialize" (some (.obj []))] := by
  cases rid <;> rfl

/-! ## C10 -/

/-- C10: `normalizeToolResult` is idempotent — re-normalising any
normalised result returns it unchanged, and an input that is already a
`ToolResult` is returned as-is. -/
theorem normalizeToolResult_idempotent :
    (∀ x : ToolResultInput,
      normalizeToolResult (.result (normalizeToolResult x)) =
        normalizeToolResult x)
    ∧ (∀ r : ToolResult, normalizeToolResult (.result r) = r) := by
  refine ⟨fun x => ?_, fun r => rfl⟩
  cases x <;> rfl

/-! ## C7 -/

/-- C7 counterexample: a DELETE request is not acknowledged with 204 and
no session is terminated; it falls through to the method-not-allowed
branch, whose `Allow` header lists only `GET, POST`. -/
theorem delete_method_gets_405 :
    (handleRequest defaultTransportState deleteReq "b").outcome =
      .response { status := 405, allow := some "GET, POST",
                  body := .errorBody (-32000)
                    "Method not allowed. Use GET or POST." none }
    ∧ (handleRequest defaultTransportState deleteReq "b").state =
        defaultTransportState := by
  exact ⟨rfl, rfl⟩

/-- C7 (amended): `handleRequest` dispatches GET to the SSE stream and
POST to message submission, and answers every other method — DELETE
included — with `405` and an `Allow: GET, POST` header. -/
theorem non_get_post_methods_rejected (s : TransportState)
    (req : HttpRequest) (bid : String)
    (hg : req.method ≠ "GET") (hp : req.method ≠ "POST") :
    handleRequest s req bid =
      ⟨s, .response { status := 405, allow := some "GET, POST",
                      body := .errorBody (-32000)
                        "Method not allowed. Use GET or POST." none },
        []⟩ := by
  unfold handleRequest
  rw [if_neg hg, if_neg hp]

/-- C7 witness: the amended theorem applied to a concrete DELETE
request. -/
theorem non_get_post_methods_rejected_witness :
    handleRequest defaultTransportState deleteReq "w7" =
      ⟨defaultTransportState,
        .response { status := 405, allow := some "GET, POST",
                    body := .errorBody (-32000)
                      "Method not allowed. Use GET or POST." none },
        []⟩ :=
  non_get_post_methods_rejected defaultTransportState deleteReq "w7"
    (by decide) (by decide)

/-! ## C9 -/

/-- C9: after successful token verification, a non-empty
`requiredScopes` list is checked against `authInfo.scopes`; if any
required scope is missing the wrapper answers itself with the
`createForbiddenResponse` (status 403, JSON-RPC code `-32002`) and the
wrapped handler is not invoked, while if every required scope is present
the handler is invoked with the verified auth info. -/
theorem scope_check_forbidden_or_handler
    (opts : AuthMiddlewareOptions) (h : Option String) (t : String)
    (a : AuthInfo) (ht : extractToken h = some t) (hne : t ≠ "")
    (hreq : opts.requiredScopes ≠ []) :
    withMcpAuthRun opts h (.ok a) =
      (if opts.requiredScopes.all
          (fun sc => (a.scopes.getD []).contains sc) then
        .callHandler a
      else
        .response (createForbiddenResponse
          ("Insufficient scopes. Required: "
            ++ joinComma opts.requiredScopes)))
    ∧ ∀ m : String, (createForbiddenResponse m).status = 403
        ∧ (createForbiddenResponse m).body =
            .errorBody (-32002) ("Forbidden: " ++ m) none := by
  refine ⟨?_, fun m => ⟨rfl, rfl⟩⟩
  unfold withMcpAuthRun
  rw [ht]
  simp only []
  rw [if_neg hne, if_pos (List.length_pos.mpr hreq)]

/-- C9 witness: a verified token carrying the single required scope
reaches the handler. -/
theorem scope_check_forbidden_or_handler_witness :
    withMcpAuthRun { requiredScopes := ["read"] } (some "Bearer abc")
      (.ok { token := "abc", scopes := some ["read"] }) =
      .callHandler { token := "abc", scopes := some ["read"] } := by
  have h := scope_check_forbidden_or_handler
    { requiredScopes := ["read"] } (some "Bearer abc") "abc"
    { token := "abc", scopes := some ["read"] }
    (by decide) (by decide) (by decide)
  exact h.1

/-! ## C6 -/

/-- An `initialize` request message satisfies `isInitializeRequest`. -/
theorem isInit_initMsg (rid : RequestId) (p : Option Json) :
    isInitializeRequest (.request rid "initialize" p) = true := rfl

/-- The standard POST headers accept both media types. -/
theorem accept_guard_false :
    (!(acceptsMediaType "application/json, text/event-stream"
        "application/json")
      && !(acceptsMediaType "application/json, text/event-stream"
        "text/event-stream")) = false := by decide

/-- The standard POST content type passes the media-type guard. -/
theorem contentType_guard_true :
    strContains (lowerStr "application/json") "application/json" = true := by
  decide

/-- C6 counterexample: on an already-initialized transport, a second
`initialize` request is rejected with `400` / `-32600`
"Server already initialized" — no session is terminated and no new one
is created; the state is returned unchanged. -/
theorem second_initialize_not_accepted :
    handlePostRequest
        { defaultTransportState with initialized := true }
        (mkPostReq (some (initReqJson (.num 2))) 80) "b6" =
      ⟨{ defaultTransportState with initialized := true },
        .response (errResp 400 (-32600)
          "Invalid Request: Server already initialized"),
        []⟩ := rfl

/-- C6 (amended): an `initialize` request arriving while the transport is
already initializing or initialized is rejected with `400` / `-32600`
"Server already initialized"; nothing is dispatched and the state is
unchanged. -/
theorem second_initialize_rejected (s : TransportState) (bid : String)
    (rid : RequestId) (len : Nat) (hlen : len ≤ s.maxBodySize)
    (hinit : s.initialized = true ∨ s.initializing = true) :
    handlePostRequest s (mkPostReq (some (initReqJson rid)) len) bid =
      ⟨s, .response (errResp 400 (-32600)
        "Invalid Request: Server already initialized"), []⟩ := by
  have hb : (s.initialized || s.initializing) = true := by
    rcases hinit with h | h <;> simp [h]
  have hlen' : ¬ (s.maxBodySize < len) := Nat.not_lt.mpr hlen
  unfold handlePostRequest
  simp only [mkPostReq, Option.getD_some, accept_guard_false,
    contentType_guard_true, parseMessages_initReqJson, hb, hlen',
    Bool.false_eq_true, if_false, Bool.not_true, Bool.not_false,
    Bool.true_and, Bool.and_true, Bool.false_and, Bool.and_false,
    if_true, ite_false, ite_true]
  simp [clTooLarge, jsonBatchLen, initReqJson, List.any_cons,
    isInit_initMsg, hb]

/-- C6 witness: the amended theorem applied on an initializing
transport. -/
theorem second_initialize_rejected_witness :
    handlePostRequest { defaultTransportState with initializing := true }
        (mkPostReq (some (initReqJson (.str "x"))) 70) "w6" =
      ⟨{ defaultTransportState with initializing := true },
        .response (errResp 400 (-32600)
          "Invalid Request: Server already initialized"),
        []⟩ :=
  second_initialize_rejected _ "w6" (.str "x") 70 (by decide) (Or.inr rfl)

/-! ## C2 -/

/-- The initialisation-request JSON is an object, not an array. -/
theorem jsonBatchLen_initReqJson (rid : RequestId) :
    jsonBatchLen (initReqJson rid) = 0 := rfl

/-- The initialisation-complete notification JSON is an object, not an
array. -/
theorem jsonBatchLen_initializedNotif :
    jsonBatchLen initializedNotifJson = 0 := rfl

/-- Parsing the initialisation-complete notification JSON. -/
theorem parseMessages_initializedNotif :
    parseMessages initializedNotifJson =
      some [.notification "notifications/initialized" none] := rfl

/-- C2 counterexample: after a POST carrying the `initialize` request
alone, the `initialized` flag is already `true` (the claimed
"Initializing, initialized = false" state does not occur), and the
`notifications/initialized` notification arriving on a transport that is
mid-initialisation changes neither flag. -/
theorem initialized_set_by_initialize_request_alone :
    (handlePostRequest defaultTransportState
        (mkPostReq (some (initReqJson (.num 1))) 80) "b2").state.initialized
      = true
    ∧ (handlePostRequest
          { defaultTransportState with initializing := true }
          (mkPostReq (some initializedNotifJson) 60) "b2a").state.initialized
        = false
    ∧ (handlePostRequest
          { defaultTransportState with initializing := true }
          (mkPostReq (some initializedNotifJson) 60) "b2a").state.initializing
        = true := ⟨rfl, rfl, rfl⟩

/-- C2 (amended): the `initialized` flag is set while processing the
`initialize` request itself — after such a POST the state has
`initialized = true`, `initializing = false` and the response is the
pending batch — whereas processing the `notifications/initialized`
notification returns `202` and leaves the transport state unchanged. -/
theorem initialized_flag_transitions :
    (∀ (s : TransportState) (bid : String) (rid : RequestId) (len : Nat),
      len ≤ s.maxBodySize → s.initialized = false → s.initializing = false →
      (handlePostRequest s (mkPostReq (some (initReqJson rid)) len)
          bid).state.initialized = true
      ∧ (handlePostRequest s (mkPostReq (some (initReqJson rid)) len)
          bid).state.initializing = false
      ∧ (handlePostRequest s (mkPostReq (some (initReqJson rid)) len)
          bid).outcome = .pending bid)
    ∧ (∀ (s : TransportState) (bid : String) (len : Nat),
      len ≤ s.maxBodySize →
      handlePostRequest s (mkPostReq (some initializedNotifJson) len) bid =
        ⟨s, .response accepted202,
          [.notification "notifications/initialized" none]⟩) := by
  constructor
  · intro s bid rid len hlen h1 h2
    have hb : (s.initialized || s.initializing) = false := by simp [h1, h2]
    have hlen' : ¬ (s.maxBodySize < len) := Nat.not_lt.mpr hlen
    unfold handlePostRequest
    simp [mkPostReq, accept_guard_false, contentType_guard_true,
      parseMessages_initReqJson, hb, hlen', clTooLarge,
      jsonBatchLen_initReqJson, isInit_initMsg, requestIdOpt,
      badProtocolVersion]
  · intro s bid len hlen
    have hlen' : ¬ (s.maxBodySize < len) := Nat.not_lt.mpr hlen
    unfold handlePostRequest
    simp [mkPostReq, accept_guard_false, contentType_guard_true,
      parseMessages_initializedNotif, hlen', clTooLarge,
      jsonBatchLen_initializedNotif, isInitializeRequest, requestIdOpt,
      badProtocolVersion]

/-- C2 witness: the amended theorem applied on the default state. -/
theorem initialized_flag_transitions_witness :
    ((handlePostRequest defaultTransportState
        (mkPostReq (some (initReqJson (.num 5))) 80) "w2").state.initialized
      = true)
    ∧ handlePostRequest defaultTransportState
        (mkPostReq (some initializedNotifJson) 60) "w2a" =
        ⟨defaultTransportState, .response accepted202,
          [.notification "notifications/initialized" none]⟩ := by
  constructor
  · exact (initialized_flag_transitions.1 defaultTransportState "w2"
      (.num 5) 80 (by decide) rfl rfl).1
  · exact initialized_flag_transitions.2 defaultTransportState "w2a" 60
      (by decide)

/-! ## C5 -/

/-- Unfolding lemma for association-list lookup on a cons cell. -/
theorem alGet_cons {α β : Type} [DecidableEq α] (a : α) (b : β)
    (t : List (α × β)) (k : α) :
    alGet ((a, b) :: t) k = if k = a then some b else alGet t k := by
  by_cases h : k = a
  · subst h; simp [alGet, List.lookup]
  · simp [alGet, List.lookup, h, beq_false_of_ne h]

/-- Lookup of a deleted key fails: filtering out all pairs whose key is
in `xs` makes every `xs` key unfindable. -/
theorem lookup_filter_not_mem {α β : Type} [DecidableEq α]
    (l : List (α × β)) (xs : List α) (k : α) (hx : xs.contains k = true) :
    (l.filter (fun p => !(xs.contains p.1))).lookup k = none := by
  induction l with
  | nil => rfl
  | cons p t ih =>
    rw [List.filter_cons]
    by_cases h : xs.contains p.1 = true
    · rw [h]; simpa using ih
    · have hk : ¬ (k = p.1) := by
        intro he; rw [← he] at h; exact h hx
      have hfk : (!xs.contains p.1) = true := by
        cases hc : xs.contains p.1
        · rfl
        · exact absurd hc h
      rw [hfk, if_pos rfl]
      show alGet ((p.1, p.2) :: List.filter _ t) k = none
      rw [alGet_cons, if_neg hk]
      exact ih

/-- A key is gone from the key list after filtering it out. -/
theorem not_mem_keys_filter_ne {β : Type} (l : List (String × β))
    (bid : String) :
    bid ∉ (l.filter (fun p => !(p.1 = bid))).map Prod.fst := by
  intro hmem
  rcases List.mem_map.mp hmem with ⟨p, hp, hfs⟩
  rcases List.mem_filter.mp hp with ⟨_, hne⟩
  simp only [Bool.not_eq_true', decide_eq_false_iff_not] at hne
  exact hne hfs

/-- The pending batch used by the C5 scenarios: a single request with
numeric id 7, no responses received, not resolved. -/
def batch7 : PendingBatch :=
  { requestIds := [.num 7], responses := [], expectedCount := 1,
    resolved := false }

/-- A default-mode (SSE) transport with `batch7` pending under id
`"b7"`. -/
def st5 : TransportState :=
  { defaultTransportState with
      pendingBatches := [("b7", batch7)],
      requestToBatch := [(.num 7, "b7")] }

/-- C5 counterexample: in the default SSE mode the timeout does not
deliver the error as an event on a `200 text/event-stream` response;
the pending promise is resolved with an HTTP `408 application/json`
response (carrying the `-32001` error with the original id 7). -/
theorem timeout_responds_408_json_in_sse_mode :
    st5.enableJsonResponse = false
    ∧ (timeoutFire st5 "b7").2 =
        [("b7", { status := 408, contentType := some "application/json",
                  allow := none, wwwAuthenticate := none,
                  body := .jsonMessages [timeoutError (.num 7)] })] :=
  ⟨rfl, rfl⟩

/-- C5 (amended): when the timeout fires for a still-unresolved pending
batch, the transport resolves the awaiting response with HTTP status 408
and `Content-Type: application/json` — in SSE mode just as in JSON mode —
whose body carries, for every request id without a received response, the
JSON-RPC error `{code: -32001, message: "Request timed out"}` with the
original id; the pending entry and all its request-id mappings are
deleted. -/
theorem timeout_emits_error_and_deletes (s : TransportState) (bid : String)
    (batch : PendingBatch) (hb : alGet s.pendingBatches bid = some batch)
    (hr : batch.resolved = false) :
    (timeoutFire s bid).2 =
      [(bid, { status := 408, contentType := some "application/json",
               allow := none, wwwAuthenticate := none,
               body := .jsonMessages (batch.requestIds.map (fun rid =>
                 (alGet batch.responses rid).getD (timeoutError rid))) })]
    ∧ bid ∉ batchIds (timeoutFire s bid).1
    ∧ (∀ rid : RequestId, batch.requestIds.contains rid = true →
        alGet (timeoutFire s bid).1.requestToBatch rid = none) := by
  unfold timeoutFire
  rw [show alGet s.pendingBatches bid = some batch from hb]
  simp only [hr, Bool.false_eq_true, if_false, batchIds]
  refine ⟨?_, ?_, ?_⟩
  · trivial
  · exact not_mem_keys_filter_ne s.pendingBatches bid
  · intro rid hrid
    exact lookup_filter_not_mem s.requestToBatch batch.requestIds rid hrid

/-- C5 witness: the amended theorem on the concrete single-request
state. -/
theorem timeout_emits_error_and_deletes_witness :
    (timeoutFire st5 "b7").2 =
      [("b7", { status := 408, contentType := some "application/json",
                allow := none, wwwAuthenticate := none,
                body := .jsonMessages (batch7.requestIds.map (fun rid =>
                  (alGet batch7.responses rid).getD (timeoutError rid))) })]
    ∧ "b7" ∉ batchIds (timeoutFire st5 "b7").1 :=
  ⟨(timeout_emits_error_and_deletes st5 "b7" batch7 rfl rfl).1,
    (timeout_emits_error_and_deletes st5 "b7" batch7 rfl rfl).2.1⟩

/-! ## C1 -/

/-- C1 counterexample: a POST whose body is a JSON array holding one
valid JSON-RPC request is not answered `400`/`-32600`; the batch is
accepted, its message is dispatched to the handler, and the returned
promise is pending on the registered batch. -/
theorem post_single_element_array_not_rejected :
    (handlePostRequest defaultTransportState
        (mkPostReq (some (Json.arr [pingJson 1])) 45) "b1").outcome =
      .pending "b1"
    ∧ postStatus (handlePostRequest defaultTransportState
        (mkPostReq (some (Json.arr [pingJson 1])) 45) "b1").outcome = none
    ∧ (handlePostRequest defaultTransportState
        (mkPostReq (some (Json.arr [pingJson 1])) 45) "b1").dispatched =
        [.request (.num 1) "ping" none] := ⟨rfl, rfl, rfl⟩

/-- C1 (amended): batches are supported, not rejected.  A POST whose
body is a JSON array longer than `maxBatchSize` is answered `400` with
code `-32000` ("Batch Too Large"); any body — array or single object —
whose messages all validate and contain no `initialize` request is
accepted: every message is dispatched to the handler, notification-only
posts get `202 Accepted` and posts containing requests leave a promise
pending on the registered batch. -/
theorem post_batch_and_single_accepted (s : TransportState) (bid : String)
    (v : Json) (len : Nat) (hlen : len ≤ s.maxBodySize) :
    (∀ xs : List Json, v = Json.arr xs → s.maxBatchSize < xs.length →
      handlePostRequest s (mkPostReq (some v) len) bid =
        ⟨s, .response (errResp 400 (-32000)
          ("Batch Too Large: Maximum " ++ toString s.maxBatchSize
            ++ " messages per batch")), []⟩)
    ∧ (∀ ms : List JSONRPCMessage,
        jsonBatchLen v ≤ s.maxBatchSize →
        parseMessages v = some ms →
        ms.all (fun m => !(isInitializeRequest m)) = true →
        (handlePostRequest s (mkPostReq (some v) len) bid).dispatched = ms
        ∧ (handlePostRequest s (mkPostReq (some v) len) bid).outcome =
            (if (ms.filterMap requestIdOpt).isEmpty then
              .response accepted202 else .pending bid)) := by
  have hlen' : ¬ (s.maxBodySize < len) := Nat.not_lt.mpr hlen
  constructor
  · intro xs hv hbig
    subst hv
    unfold handlePostRequest
    simp [mkPostReq, accept_guard_false, contentType_guard_true, clTooLarge,
      hlen', jsonBatchLen, hbig]
  · intro ms hsize hparse hno
    have hsize' : ¬ (s.maxBatchSize < jsonBatchLen v) := Nat.not_lt.mpr hsize
    have hany : ms.any isInitializeRequest = false := by
      rw [List.any_eq_false]
      intro x hx
      have hx' := (List.all_eq_true.mp hno) x hx
      simp only [Bool.not_eq_true'] at hx'
      simp [hx']
    unfold handlePostRequest
    by_cases he : (ms.filterMap requestIdOpt).isEmpty = true
    · simp [mkPostReq, accept_guard_false, contentType_guard_true, clTooLarge,
        hlen', hsize', hparse, hany, badProtocolVersion, he]
    · have he' : (ms.filterMap requestIdOpt).isEmpty = false := by
        cases hc : (ms.filterMap requestIdOpt).isEmpty
        · rfl
        · exact absurd hc he
      simp [mkPostReq, accept_guard_false, contentType_guard_true, clTooLarge,
        hlen', hsize', hparse, hany, badProtocolVersion, he']

/-- C1 witness: a two-request batch within the size limit is accepted
and both messages are dispatched. -/
theorem post_batch_and_single_accepted_witness :
    (handlePostRequest defaultTransportState
        (mkPostReq (some (Json.arr [pingJson 1, pingJson 2])) 90)
        "w1").dispatched =
      [.request (.num 1) "ping" none, .request (.num 2) "ping" none]
    ∧ (handlePostRequest defaultTransportState
        (mkPostReq (some (Json.arr [pingJson 1, pingJson 2])) 90)
        "w1").outcome = .pending "w1" := by
  have h := (post_batch_and_single_accepted defaultTransportState "w1"
    (Json.arr [pingJson 1, pingJson 2]) 90 (by decide)).2
    [.request (.num 1) "ping" none, .request (.num 2) "ping" none]
    (by decide) rfl (by decide)
  exact ⟨h.1, h.2.trans (by rfl)⟩

/-! ## C3 -/

/-- Exhaustive HTTP status analysis of the POST pipeline: an immediate
response can only be the `406` Not Acceptable (exactly when the Accept
header admits neither media type), a `415`, a `413`, a `400`, or the
`202` acknowledgement. -/
theorem handlePost_status_cases (s : TransportState) (req : HttpRequest)
    (bid : String) (st : Nat)
    (h : postStatus (handlePostRequest s req bid).outcome = some st) :
    (st = 406
      ∧ (!(acceptsMediaType (req.accept.getD "") "application/json")
          && !(acceptsMediaType (req.accept.getD "") "text/event-stream"))
          = true)
    ∨ st = 415 ∨ st = 413 ∨ st = 400 ∨ st = 202 := by
  unfold handlePostRequest at h
  by_cases c1 : (!(acceptsMediaType (req.accept.getD "") "application/json")
      && !(acceptsMediaType (req.accept.getD "") "text/event-stream"))
      = true
  · rw [if_pos c1] at h
    simp only [postStatus, errResp, Option.some.injEq] at h
    exact Or.inl ⟨h.symm, c1⟩
  · rw [if_neg c1] at h
    by_cases c2 : (!(strContains (lowerStr (req.contentType.getD ""))
        "application/json")) = true
    · rw [if_pos c2] at h
      simp only [postStatus, errResp, Option.some.injEq] at h
      exact Or.inr (Or.inl h.symm)
    · rw [if_neg c2] at h
      by_cases c3 : clTooLarge req.contentLength s.maxBodySize = true
      · rw [if_pos c3] at h
        simp only [postStatus, errResp, Option.some.injEq] at h
        exact Or.inr (Or.inr (Or.inl h.symm))
      · rw [if_neg c3] at h
        by_cases c4 : s.maxBodySize < req.bodyLen
        · rw [if_pos c4] at h
          simp only [postStatus, errResp, Option.some.injEq] at h
          exact Or.inr (Or.inr (Or.inl h.symm))
        · rw [if_neg c4] at h
          rcases hbj : req.bodyJson with _ | raw
          · simp only [hbj, postStatus, errResp, Option.some.injEq] at h
            exact Or.inr (Or.inr (Or.inr (Or.inl h.symm)))
          · simp only [hbj] at h
            by_cases c5 : s.maxBatchSize < jsonBatchLen raw
            · rw [if_pos c5] at h
              simp only [postStatus, errResp, Option.some.injEq] at h
              exact Or.inr (Or.inr (Or.inr (Or.inl h.symm)))
            · rw [if_neg c5] at h
              rcases hpm : parseMessages raw with _ | ms
              · simp only [hpm, postStatus, errResp, Option.some.injEq] at h
                exact Or.inr (Or.inr (Or.inr (Or.inl h.symm)))
              · simp only [hpm] at h
                by_cases c6 : (ms.any isInitializeRequest
                    && decide (1 < ms.length)) = true
                · rw [if_pos c6] at h
                  simp only [postStatus, errResp, Option.some.injEq] at h
                  exact Or.inr (Or.inr (Or.inr (Or.inl h.symm)))
                · rw [if_neg c6] at h
                  by_cases c7 : (ms.any isInitializeRequest
                      && (s.initialized || s.initializing)) = true
                  · rw [if_pos c7] at h
                    simp only [postStatus, errResp, Option.some.injEq] at h
                    exact Or.inr (Or.inr (Or.inr (Or.inl h.symm)))
                  · rw [if_neg c7] at h
                    by_cases c8 : (!(ms.any isInitializeRequest)
                        && badProtocolVersion req.protocolVersion) = true
                    · rw [if_pos c8] at h
                      simp only [postStatus, errResp, Option.some.injEq] at h
                      exact Or.inr (Or.inr (Or.inr (Or.inl h.symm)))
                    · rw [if_neg c8] at h
                      by_cases c9 : (ms.filterMap requestIdOpt).isEmpty = true
                      · rw [if_pos c9] at h
                        simp only [postStatus, accepted202,
                          Option.some.injEq] at h
                        exact Or.inr (Or.inr (Or.inr (Or.inr h.symm)))
                      · rw [if_neg c9] at h
                        simp only [postStatus] at h
                        exact Option.noConfusion h

/-- C3 counterexample: a POST whose Accept header lists only
`application/json` (so `text/event-stream` is missing) is not answered
`406`; the message is accepted and processed. -/
theorem post_single_accept_type_not_rejected :
    (handlePostRequest defaultTransportState
        ({ (mkPostReq (some (pingJson 3)) 45) with
            accept := some "application/json" }) "b3").outcome =
      .pending "b3"
    ∧ postStatus (handlePostRequest defaultTransportState
        ({ (mkPostReq (some (pingJson 3)) 45) with
            accept := some "application/json" }) "b3").outcome = none :=
  ⟨rfl, rfl⟩

/-- C3 (amended): `handlePostRequest` answers `406` (the `-32000`
Not Acceptable error) precisely when the Accept header contains
*neither* `application/json` nor `text/event-stream`; a POST listing
just one of the two media types passes the check. -/
theorem post_not_acceptable_iff_neither_accepted (s : TransportState)
    (req : HttpRequest) (bid : String) :
    postStatus (handlePostRequest s req bid).outcome = some 406 ↔
      (!(acceptsMediaType (req.accept.getD "") "application/json")
        && !(acceptsMediaType (req.accept.getD "") "text/event-stream"))
        = true := by
  constructor
  · intro h
    rcases handlePost_status_cases s req bid 406 h with ⟨_, hg⟩ | h' | h' | h' | h'
    · exact hg
    · exact absurd h' (by decide)
    · exact absurd h' (by decide)
    · exact absurd h' (by decide)
    · exact absurd h' (by decide)
  · intro hg
    unfold handlePostRequest
    rw [if_pos hg]
    rfl

/-! ## C4 -/

/-- The GET pipeline can only answer `406`, `409` or `200`. -/
theorem handleGet_status_cases (s : TransportState) (req : HttpRequest) :
    (handleGetRequest s req).2.status = 406
    ∨ (handleGetRequest s req).2.status = 409
    ∨ (handleGetRequest s req).2.status = 200 := by
  unfold handleGetRequest
  split_ifs <;> simp [errResp] <;> split_ifs <;> simp [errResp]

/-- A POST request carrying a disallowed Origin header. -/
def evilOriginReq : HttpRequest :=
  { (mkPostReq (some (pingJson 4)) 45) with
      origin := some "https://evil.example" }

/-- C4 counterexample: a POST with `Origin: https://evil.example` is not
answered `403`; the transport performs no Origin validation and the
message is accepted, dispatched and left pending. -/
theorem disallowed_origin_processed :
    (handleRequest defaultTransportState evilOriginReq "b4").outcome =
      .pending "b4"
    ∧ postStatus
        (handleRequest defaultTransportState evilOriginReq "b4").outcome =
        none
    ∧ (handleRequest defaultTransportState evilOriginReq "b4").dispatched =
        [.request (.num 4) "ping" none] := ⟨rfl, rfl, rfl⟩

/-- C4 (amended): `handleRequest` does not validate the Origin header at
all — no request, whatever its Origin, is ever answered `403` (possible
statuses are 406, 409, 200, 415, 413, 400, 202 and 405), and the result
of `handleRequest` is entirely independent of the Origin header. -/
theorem no_origin_validation :
    (∀ (s : TransportState) (req : HttpRequest) (bid : String),
      postStatus (handleRequest s req bid).outcome ≠ some 403)
    ∧ (∀ (s : TransportState) (req : HttpRequest) (bid : String)
        (o : Option String),
      handleRequest s ({ req with origin := o }) bid =
        handleRequest s req bid) := by
  constructor
  · intro s req bid h
    unfold handleRequest at h
    by_cases hg : req.method = "GET"
    · rw [if_pos hg] at h
      simp only [postStatus, Option.some.injEq] at h
      rcases handleGet_status_cases s req with h' | h' | h' <;> omega
    · rw [if_neg hg] at h
      by_cases hp : req.method = "POST"
      · rw [if_pos hp] at h
        rcases handlePost_status_cases s req bid 403 h with ⟨h', _⟩ | h' | h' | h' | h'
        · exact absurd h' (by decide)
        · exact absurd h' (by decide)
        · exact absurd h' (by decide)
        · exact absurd h' (by decide)
        · exact absurd h' (by decide)
      · rw [if_neg hp] at h
        simp only [postStatus, Option.some.injEq] at h
        omega
  · intro s req bid o
    rfl

/-! ## C8: pending requests are resolved exactly once -/

/-- A found binding is a member of the association list. -/
theorem alGet_some_mem {α β : Type} [DecidableEq α]
    {l : List (α × β)} {k : α} {b : β} (h : alGet l k = some b) :
    (k, b) ∈ l := by
  induction l with
  | nil => exact Option.noConfusion h
  | cons p t ih =>
    rcases p with ⟨a, v⟩
    rw [alGet_cons] at h
    by_cases hk : k = a
    · rw [if_pos hk] at h
      cases h
      exact hk ▸ List.mem_cons_self _ _
    · rw [if_neg hk] at h
      exact List.mem_cons_of_mem _ (ih h)

/-- A found key is in the key list. -/
theorem alGet_some_mem_keys {α β : Type} [DecidableEq α]
    {l : List (α × β)} {k : α} {b : β} (h : alGet l k = some b) :
    k ∈ l.map Prod.fst :=
  List.mem_map.mpr ⟨(k, b), alGet_some_mem h, rfl⟩

/-- With duplicate-free keys, a member's value is what lookup returns. -/
theorem mem_eq_of_alGet {α β : Type} [DecidableEq α]
    {l : List (α × β)} {k : α} {b b' : β}
    (hnd : (l.map Prod.fst).Nodup) (hm : (k, b) ∈ l)
    (h : alGet l k = some b') : b = b' := by
  induction l with
  | nil => exact absurd hm (List.not_mem_nil _)
  | cons p t ih =>
    rcases p with ⟨a, v⟩
    rw [List.map_cons, List.nodup_cons] at hnd
    rw [alGet_cons] at h
    rcases List.mem_cons.mp hm with he | hm'
    · cases he
      rw [if_pos rfl] at h
      cases h
      rfl
    · have hk : ¬ (k = a) := by
        intro he
        subst he
        exact hnd.1 (List.mem_map.mpr ⟨(k, b), hm', rfl⟩)
      rw [if_neg hk] at h
      exact ih hnd.2 hm' h

/-- Updating an existing key leaves the key list unchanged. -/
theorem alSet_keys_of_isSome {α β : Type} [DecidableEq α]
    (l : List (α × β)) (k : α) (v : β) (h : (l.lookup k).isSome = true) :
    (alSet l k v).map Prod.fst = l.map Prod.fst := by
  unfold alSet
  rw [if_pos h, List.map_map]
  apply List.map_congr_left
  intro p _
  by_cases hp : p.1 = k
  · simp [hp]
  · simp [hp]

/-- Every member of an updated association list is the new binding or an
old member. -/
theorem mem_alSet_elim {α β : Type} [DecidableEq α]
    {l : List (α × β)} {k : α} {v : β} {p : α × β}
    (h : p ∈ alSet l k v) : p = (k, v) ∨ p ∈ l := by
  unfold alSet at h
  by_cases hs : (l.lookup k).isSome = true
  · rw [if_pos hs] at h
    rcases List.mem_map.mp h with ⟨q, hq, hfq⟩
    by_cases hqk : q.1 = k
    · rw [if_pos hqk] at hfq
      exact Or.inl hfq.symm
    · rw [if_neg hqk] at hfq
      exact Or.inr (hfq ▸ hq)
  · rw [if_neg hs] at h
    rcases List.mem_append.mp h with h' | h'
    · exact Or.inr h'
    · rcases List.mem_singleton.mp h' with rfl
      exact Or.inl rfl

/-- A key distinct from the removed one survives the removal. -/
theorem mem_keys_filter_ne_of_ne {β : Type} {l : List (String × β)}
    {bid bid' : String} (hm : bid ∈ l.map Prod.fst) (hne : bid ≠ bid') :
    bid ∈ (l.filter (fun p => !(p.1 = bid'))).map Prod.fst := by
  rcases List.mem_map.mp hm with ⟨p, hp, hfs⟩
  refine List.mem_map.mpr ⟨p, List.mem_filter.mpr ⟨hp, ?_⟩, hfs⟩
  subst hfs
  simp [hne]

/-- Filtering can only shrink the key list (as a sublist). -/
theorem keys_filter_sublist {β : Type} (l : List (String × β))
    (f : String × β → Bool) :
    ((l.filter f).map Prod.fst).Sublist (l.map Prod.fst) :=
  (List.filter_sublist l).map Prod.fst

/-- `emitCount` distributes over appending traces. -/
theorem emitCount_append (a b : Resolutions) (bid : String) :
    emitCount (a ++ b) bid = emitCount a bid + emitCount b bid := by
  simp [emitCount, List.filter_append]

/-- A single resolution for a different batch does not count. -/
theorem emitCount_single_ne (bid' bid : String) (r : McpResponse)
    (h : bid' ≠ bid) : emitCount [(bid', r)] bid = 0 := by
  simp [emitCount, h]

/-- A single resolution for the batch counts once. -/
theorem emitCount_single_eq (bid : String) (r : McpResponse) :
    emitCount [(bid, r)] bid = 1 := by
  simp [emitCount]

/-- The batch map is well formed: duplicate-free batch ids, every stored
batch unresolved, and every request-id mapping points at a stored batch
that lists that request id.  These hold for the maps the transport
actually builds. -/
def wfState (s : TransportState) : Prop :=
  (batchIds s).Nodup
  ∧ (∀ p ∈ s.pendingBatches, p.2.resolved = false)
  ∧ (∀ q ∈ s.requestToBatch,
      ∃ p ∈ s.pendingBatches, p.1 = q.2 ∧ p.2.requestIds.contains q.1 = true)

/-- A batch id is fully gone: not in the batch map and pointed at by no
request-id mapping. -/
def cleanFor (s : TransportState) (bid : String) : Prop :=
  bid ∉ batchIds s ∧ ∀ q ∈ s.requestToBatch, q.2 ≠ bid

/-- An old member with a different key survives a `Map.set`. -/
theorem mem_alSet_of_ne {α β : Type} [DecidableEq α]
    {l : List (α × β)} {k : α} {v : β} {p : α × β}
    (hp : p ∈ l) (hne : p.1 ≠ k) : p ∈ alSet l k v := by
  unfold alSet
  by_cases hs : (l.lookup k).isSome = true
  · rw [if_pos hs]
    refine List.mem_map.mpr ⟨p, hp, ?_⟩
    rw [if_neg hne]
  · rw [if_neg hs]
    exact List.mem_append_left _ hp

/-- After updating an existing key, the new binding is a member. -/
theorem mem_alSet_self {α β : Type} [DecidableEq α]
    {l : List (α × β)} {k : α} {b : β} (v : β)
    (h : alGet l k = some b) : (k, v) ∈ alSet l k v := by
  unfold alSet
  have hs : (l.lookup k).isSome = true := by
    unfold alGet at h
    rw [h]
    rfl
  rw [if_pos hs]
  refine List.mem_map.mpr ⟨(k, b), alGet_some_mem h, ?_⟩
  rw [if_pos rfl]

/-- Resolving (or timing out) a batch leaves no request-id mapping
pointing at it. -/
theorem rtb_filter_clean (s : TransportState) (bid' : String)
    (batch : PendingBatch) (hwf : wfState s)
    (hg : alGet s.pendingBatches bid' = some batch) :
    ∀ q ∈ s.requestToBatch.filter
      (fun p => !(batch.requestIds.contains p.1)), q.2 ≠ bid' := by
  intro q hq hqe
  rcases List.mem_filter.mp hq with ⟨hqm, hkeep⟩
  rcases hwf.2.2 q hqm with ⟨p, hp, hpk, hpc⟩
  have hpm : (bid', p.2) ∈ s.pendingBatches := by
    have : p = (bid', p.2) := by
      rw [← hqe, ← hpk]
    exact this ▸ hp
  have hpb : p.2 = batch := mem_eq_of_alGet hwf.1 hpm hg
  rw [hpb] at hpc
  rw [hpc] at hkeep
  exact Bool.noConfusion hkeep

/-- Deleting a batch and its request-id mappings preserves
well-formedness. -/
theorem wf_after_resolve (s : TransportState) (bid' : String)
    (batch : PendingBatch) (hwf : wfState s)
    (hg : alGet s.pendingBatches bid' = some batch) :
    wfState { s with
      requestToBatch := s.requestToBatch.filter
        (fun p => !(batch.requestIds.contains p.1)),
      pendingBatches := s.pendingBatches.filter
        (fun p => !(p.1 = bid')) } := by
  refine ⟨?_, ?_, ?_⟩
  · exact List.Nodup.sublist (keys_filter_sublist _ _) hwf.1
  · intro p hp
    exact hwf.2.1 p (List.mem_filter.mp hp).1
  · intro q hq
    rcases List.mem_filter.mp hq with ⟨hqm, hkeep⟩
    rcases hwf.2.2 q hqm with ⟨p, hp, hpk, hpc⟩
    have hpne : ¬ (p.1 = bid') := by
      intro he
      have hpm : (bid', p.2) ∈ s.pendingBatches := by
        have : p = (bid', p.2) := by rw [← he]
        exact this ▸ hp
      have hpb : p.2 = batch := mem_eq_of_alGet hwf.1 hpm hg
      rw [hpb] at hpc
      rw [hpc] at hkeep
      exact Bool.noConfusion hkeep
    refine ⟨p, List.mem_filter.mpr ⟨hp, ?_⟩, hpk, hpc⟩
    simp [hpne]

/-- Replacing a stored batch by one with the same request ids (and still
unresolved) preserves well-formedness. -/
theorem wf_after_update (s : TransportState) (bid' : String)
    (batch batch' : PendingBatch) (hwf : wfState s)
    (hg : alGet s.pendingBatches bid' = some batch)
    (hres : batch'.resolved = false)
    (hids : batch'.requestIds = batch.requestIds) :
    wfState { s with
      pendingBatches := alSet s.pendingBatches bid' batch' } := by
  have hs : (s.pendingBatches.lookup bid').isSome = true := by
    unfold alGet at hg
    rw [hg]
    rfl
  refine ⟨?_, ?_, ?_⟩
  · show ((alSet s.pendingBatches bid' batch').map Prod.fst).Nodup
    rw [alSet_keys_of_isSome _ _ _ hs]
    exact hwf.1
  · intro p hp
    rcases mem_alSet_elim hp with he | hm
    · rw [he]
      exact hres
    · exact hwf.2.1 p hm
  · intro q hq
    rcases hwf.2.2 q hq with ⟨p, hp, hpk, hpc⟩
    by_cases hpe : p.1 = bid'
    · have hpm : (bid', p.2) ∈ s.pendingBatches := by
        have : p = (bid', p.2) := by rw [← hpe]
        exact this ▸ hp
      have hpb : p.2 = batch := mem_eq_of_alGet hwf.1 hpm hg
      refine ⟨(bid', batch'), mem_alSet_self batch' hg, ?_, ?_⟩
      · rw [← hpe, hpk]
      · show batch'.requestIds.contains q.1 = true
        rw [hids, ← hpb]
        exact hpc
    · exact ⟨p, mem_alSet_of_ne hp hpe, hpk, hpc⟩

/-- The `200` response `resolveBatch` builds (JSON body or SSE events
depending on the mode). -/
def batchResolutionResponse (s : TransportState) (batch : PendingBatch) :
    McpResponse :=
  if s.enableJsonResponse then
    { status := 200, contentType := some "application/json",
      body := .jsonMessages (orderedResponses batch) }
  else
    { status := 200, contentType := some "text/event-stream",
      body := .sseEvents (orderedResponses batch) }

/-- The `408` response the timeout builds for a batch. -/
def timeoutBatchResponse (batch : PendingBatch) : McpResponse :=
  { status := 408, contentType := some "application/json",
    body := .jsonMessages (batch.requestIds.map
      (fun rid => (alGet batch.responses rid).getD (timeoutError rid))) }

/-- Equation form of `resolveBatch` on an unresolved batch. -/
theorem resolveBatch_eq (s : TransportState) (bid' : String)
    (batch : PendingBatch) (hr : batch.resolved = false) :
    resolveBatch s bid' batch =
      ({ s with
          requestToBatch := s.requestToBatch.filter
            (fun p => !(batch.requestIds.contains p.1)),
          pendingBatches := s.pendingBatches.filter
            (fun p => !(p.1 = bid')) },
        [(bid', batchResolutionResponse s batch)]) := by
  unfold resolveBatch batchResolutionResponse
  simp only [hr, Bool.false_eq_true, if_false]

/-- Equation form of `timeoutFire` on an unresolved pending batch. -/
theorem timeoutFire_eq (s : TransportState) (bid' : String)
    (batch : PendingBatch) (hg : alGet s.pendingBatches bid' = some batch)
    (hr : batch.resolved = false) :
    timeoutFire s bid' =
      ({ s with
          requestToBatch := s.requestToBatch.filter
            (fun p => !(batch.requestIds.contains p.1)),
          pendingBatches := s.pendingBatches.filter
            (fun p => !(p.1 = bid')) },
        [(bid', timeoutBatchResponse batch)]) := by
  unfold timeoutFire timeoutBatchResponse
  simp only [hg, hr, Bool.false_eq_true, if_false]

/-- A timeout for an unknown batch id does nothing. -/
theorem timeoutFire_none (s : TransportState) (bid' : String)
    (hg : alGet s.pendingBatches bid' = none) :
    timeoutFire s bid' = (s, []) := by
  unfold timeoutFire
  simp only [hg]

/-- A timeout for an already-resolved batch does nothing. -/
theorem timeoutFire_resolved (s : TransportState) (bid' : String)
    (batch : PendingBatch) (hg : alGet s.pendingBatches bid' = some batch)
    (hr : batch.resolved = true) :
    timeoutFire s bid' = (s, []) := by
  unfold timeoutFire
  simp only [hg, hr, if_true]

/-- `send` of a non-response message does not touch the batch maps. -/
theorem sendMsg_notification (s : TransportState) (m : JSONRPCMessage)
    (h : responseIdOpt m = none) : sendMsg s m = (s, []) := by
  unfold sendMsg
  simp only [h]

/-- `send` of a response with no mapped batch id does nothing. -/
theorem sendMsg_nomap (s : TransportState) (m : JSONRPCMessage)
    (rid : RequestId) (h : responseIdOpt m = some rid)
    (h2 : alGet s.requestToBatch rid = none) : sendMsg s m = (s, []) := by
  unfold sendMsg
  simp only [h, h2]

/-- `send` of a response whose mapped batch no longer exists does
nothing. -/
theorem sendMsg_nobatch (s : TransportState) (m : JSONRPCMessage)
    (rid : RequestId) (bid' : String) (h : responseIdOpt m = some rid)
    (h2 : alGet s.requestToBatch rid = some bid')
    (h3 : alGet s.pendingBatches bid' = none) : sendMsg s m = (s, []) := by
  unfold sendMsg
  simp only [h, h2, h3]

/-- `send` of a response to an already-resolved batch does nothing. -/
theorem sendMsg_resolved (s : TransportState) (m : JSONRPCMessage)
    (rid : RequestId) (bid' : String) (batch : PendingBatch)
    (h : responseIdOpt m = some rid)
    (h2 : alGet s.requestToBatch rid = some bid')
    (h3 : alGet s.pendingBatches bid' = some batch)
    (h4 : batch.resolved = true) : sendMsg s m = (s, []) := by
  unfold sendMsg
  simp only [h, h2, h3, h4, if_true]

/-- `send` of a response that does not yet complete its batch records it
and keeps the batch pending. -/
theorem sendMsg_incomplete (s : TransportState) (m : JSONRPCMessage)
    (rid : RequestId) (bid' : String) (batch : PendingBatch)
    (h : responseIdOpt m = some rid)
    (h2 : alGet s.requestToBatch rid = some bid')
    (h3 : alGet s.pendingBatches bid' = some batch)
    (h4 : batch.resolved = false)
    (h5 : ¬ (batch.expectedCount ≤
      (alSet batch.responses rid m).length)) :
    sendMsg s m =
      ({ s with
          pendingBatches := alSet s.pendingBatches bid'
            { batch with responses := alSet batch.responses rid m } },
        []) := by
  unfold sendMsg
  simp only [h, h2, h3, h4, Bool.false_eq_true, if_false]
  rw [if_neg h5]

/-- `send` of the last awaited response resolves the batch. -/
theorem sendMsg_complete (s : TransportState) (m : JSONRPCMessage)
    (rid : RequestId) (bid' : String) (batch : PendingBatch)
    (h : responseIdOpt m = some rid)
    (h2 : alGet s.requestToBatch rid = some bid')
    (h3 : alGet s.pendingBatches bid' = some batch)
    (h4 : batch.resolved = false)
    (h5 : batch.expectedCount ≤ (alSet batch.responses rid m).length) :
    sendMsg s m =
      resolveBatch s bid'
        { batch with responses := alSet batch.responses rid m } := by
  unfold sendMsg
  simp only [h, h2, h3, h4, Bool.false_eq_true, if_false]
  rw [if_pos h5]

/-- `emitCount` ignores a resolution for a different batch id. -/
theorem emitCount_cons_ne (p : String × McpResponse) (evs : Resolutions)
    (bid : String) (h : p.1 ≠ bid) :
    emitCount (p :: evs) bid = emitCount evs bid := by
  simp [emitCount, List.filter_cons, h]

/-- `emitCount` counts a resolution for the batch id. -/
theorem emitCount_cons_eq (p : String × McpResponse) (evs : Resolutions)
    (bid : String) (h : p.1 = bid) :
    emitCount (p :: evs) bid = emitCount evs bid + 1 := by
  simp [emitCount, List.filter_cons, h]

/-- `close` emits nothing for a batch id absent from the map. -/
theorem emitCount_close_zero (l : List (String × PendingBatch))
    (bid : String) (h : ∀ p ∈ l, p.1 ≠ bid) :
    emitCount (l.filterMap (fun p => if p.2.resolved then none
      else some (p.1, errResp 500 (-32000) "Transport closed"))) bid
      = 0 := by
  induction l with
  | nil => rfl
  | cons p t ih =>
    have ht := ih (fun q hq => h q (List.mem_cons_of_mem _ hq))
    have hne := h p (List.mem_cons_self _ _)
    rw [List.filterMap_cons]
    cases hres : p.2.resolved
    · simp only [Bool.false_eq_true, if_false]
      rw [emitCount_cons_ne _ _ _ hne]
      exact ht
    · simp only [if_true]
      exact ht

/-- `close` of a well-formed map emits exactly one resolution for each
stored batch id. -/
theorem emitCount_close_one (l : List (String × PendingBatch))
    (bid : String) (hnd : (l.map Prod.fst).Nodup)
    (hmem : bid ∈ l.map Prod.fst)
    (hun : ∀ p ∈ l, p.2.resolved = false) :
    emitCount (l.filterMap (fun p => if p.2.resolved then none
      else some (p.1, errResp 500 (-32000) "Transport closed"))) bid
      = 1 := by
  induction l with
  | nil => exact absurd hmem (List.not_mem_nil _)
  | cons p t ih =>
    rw [List.map_cons, List.nodup_cons] at hnd
    rw [List.filterMap_cons]
    rw [hun p (List.mem_cons_self _ _)]
    simp only [Bool.false_eq_true, if_false]
    by_cases he : p.1 = bid
    · rw [emitCount_cons_eq _ _ _ he]
      have hz : emitCount (t.filterMap (fun p => if p.2.resolved then none
          else some (p.1, errResp 500 (-32000) "Transport closed"))) bid
          = 0 := by
        apply emitCount_close_zero
        intro q hq hqe
        apply hnd.1
        rw [he, ← hqe]
        exact List.mem_map.mpr ⟨q, hq, rfl⟩
      rw [hz]
    · rw [emitCount_cons_ne _ _ _ he]
      have hmem' : bid ∈ t.map Prod.fst := by
        rcases List.mem_cons.mp hmem with h' | h'
        · exact absurd h'.symm he
        · exact h'
      exact ih hnd.2 hmem' (fun q hq => hun q (List.mem_cons_of_mem _ hq))

/-- Once a batch id is fully gone, no event brings it back or emits a
resolution for it: the maps are only ever shrunk or updated in place. -/
theorem step_clean (s : TransportState) (op : Op) (bid : String)
    (hc : cleanFor s bid) :
    cleanFor (stepOp s op).1 bid ∧ emitCount (stepOp s op).2 bid = 0 := by
  cases op with
  | close =>
    simp only [stepOp]
    refine ⟨⟨?_, ?_⟩, ?_⟩
    · exact List.not_mem_nil bid
    · intro q hq
      exact hc.2 q (List.mem_filter.mp hq).1
    · apply emitCount_close_zero
      intro p hp hpe
      apply hc.1
      rw [← hpe]
      exact List.mem_map.mpr ⟨p, hp, rfl⟩
  | timeout bid' =>
    simp only [stepOp]
    rcases hg : alGet s.pendingBatches bid' with _ | batch
    · rw [timeoutFire_none s bid' hg]
      exact ⟨hc, rfl⟩
    · cases hres : batch.resolved with
      | true =>
        rw [timeoutFire_resolved s bid' batch hg hres]
        exact ⟨hc, rfl⟩
      | false =>
        rw [timeoutFire_eq s bid' batch hg hres]
        have hbne : bid' ≠ bid := fun he => hc.1 (he ▸ alGet_some_mem_keys hg)
        refine ⟨⟨?_, ?_⟩, ?_⟩
        · intro hmem
          exact hc.1 ((keys_filter_sublist _ _).subset hmem)
        · intro q hq
          exact hc.2 q (List.mem_filter.mp hq).1
        · exact emitCount_single_ne bid' bid _ hbne
  | send m =>
    simp only [stepOp]
    rcases hri : responseIdOpt m with _ | rid
    · rw [sendMsg_notification s m hri]
      exact ⟨hc, rfl⟩
    · rcases h2 : alGet s.requestToBatch rid with _ | bid'
      · rw [sendMsg_nomap s m rid hri h2]
        exact ⟨hc, rfl⟩
      · rcases h3 : alGet s.pendingBatches bid' with _ | batch
        · rw [sendMsg_nobatch s m rid bid' hri h2 h3]
          exact ⟨hc, rfl⟩
        · cases h4 : batch.resolved with
          | true =>
            rw [sendMsg_resolved s m rid bid' batch hri h2 h3 h4]
            exact ⟨hc, rfl⟩
          | false =>
            by_cases h5 : batch.expectedCount ≤
                (alSet batch.responses rid m).length
            · rw [sendMsg_complete s m rid bid' batch hri h2 h3 h4 h5]
              rw [resolveBatch_eq s bid'
                { batch with responses := alSet batch.responses rid m }
                (show ({ batch with
                    responses := alSet batch.responses rid m }
                    : PendingBatch).resolved = false from h4)]
              have hbne : bid' ≠ bid := fun he =>
                hc.1 (he ▸ alGet_some_mem_keys h3)
              refine ⟨⟨?_, ?_⟩, ?_⟩
              · intro hmem
                exact hc.1 ((keys_filter_sublist _ _).subset hmem)
              · intro q hq
                exact hc.2 q (List.mem_filter.mp hq).1
              · exact emitCount_single_ne bid' bid _ hbne
            · rw [sendMsg_incomplete s m rid bid' batch hri h2 h3 h4 h5]
              have hs : (s.pendingBatches.lookup bid').isSome = true := by
                unfold alGet at h3
                rw [h3]
                rfl
              have hkeys : batchIds ({ s with
                  pendingBatches := alSet s.pendingBatches bid'
                    { batch with
                        responses := alSet batch.responses rid m } }) =
                  batchIds s :=
                alSet_keys_of_isSome _ _ _ hs
              refine ⟨⟨?_, hc.2⟩, rfl⟩
              intro hmem
              exact hc.1 (hkeys ▸ hmem)

/-- `step_clean` extended along a whole trace. -/
theorem runOps_clean (bid : String) (ops : List Op) :
    ∀ (s : TransportState), cleanFor s bid →
      emitCount (runOps s ops).2 bid = 0
      ∧ cleanFor (runOps s ops).1 bid := by
  induction ops with
  | nil => exact fun s hc => ⟨rfl, hc⟩
  | cons op rest ih =>
    intro s hc
    have h1 := step_clean s op bid hc
    have h2 := ih (stepOp s op).1 h1.1
    refine ⟨?_, h2.2⟩
    show emitCount ((stepOp s op).2 ++ (runOps (stepOp s op).1 rest).2) bid
      = 0
    rw [emitCount_append, h1.2, h2.1]

/-- One step of the event loop, seen from a registered batch: either the
batch stays registered (well-formedness intact) and nothing was emitted
for it, or exactly one resolution for it was emitted and the batch — with
all its request-id mappings — is gone. -/
theorem step_dichotomy (s : TransportState) (op : Op) (bid : String)
    (hwf : wfState s) (hmem : bid ∈ batchIds s) :
    (wfState (stepOp s op).1 ∧ bid ∈ batchIds (stepOp s op).1
      ∧ emitCount (stepOp s op).2 bid = 0)
    ∨ (emitCount (stepOp s op).2 bid = 1
      ∧ cleanFor (stepOp s op).1 bid) := by
  cases op with
  | close =>
    right
    simp only [stepOp]
    refine ⟨?_, ?_, ?_⟩
    · exact emitCount_close_one s.pendingBatches bid hwf.1 hmem hwf.2.1
    · exact List.not_mem_nil bid
    · intro q hq hqe
      rcases List.mem_filter.mp hq with ⟨hqm, hkeep⟩
      rcases hwf.2.2 q hqm with ⟨p, hp, hpk, hpc⟩
      have hany : s.pendingBatches.any
          (fun p => p.2.requestIds.contains q.1) = true :=
        List.any_eq_true.mpr ⟨p, hp, hpc⟩
      rw [hany] at hkeep
      exact Bool.noConfusion hkeep
  | timeout bid' =>
    simp only [stepOp]
    rcases hg : alGet s.pendingBatches bid' with _ | batch
    · rw [timeoutFire_none s bid' hg]
      exact Or.inl ⟨hwf, hmem, rfl⟩
    · have hres : batch.resolved = false :=
        hwf.2.1 (bid', batch) (alGet_some_mem hg)
      rw [timeoutFire_eq s bid' batch hg hres]
      by_cases he : bid' = bid
      · subst he
        right
        refine ⟨emitCount_single_eq bid' _, ?_, ?_⟩
        · exact not_mem_keys_filter_ne s.pendingBatches bid'
        · exact rtb_filter_clean s bid' batch hwf hg
      · left
        refine ⟨wf_after_resolve s bid' batch hwf hg, ?_, ?_⟩
        · exact mem_keys_filter_ne_of_ne hmem (fun h => he h.symm)
        · exact emitCount_single_ne bid' bid _ he
  | send m =>
    simp only [stepOp]
    rcases hri : responseIdOpt m with _ | rid
    · rw [sendMsg_notification s m hri]
      exact Or.inl ⟨hwf, hmem, rfl⟩
    · rcases h2 : alGet s.requestToBatch rid with _ | bid'
      · rw [sendMsg_nomap s m rid hri h2]
        exact Or.inl ⟨hwf, hmem, rfl⟩
      · rcases h3 : alGet s.pendingBatches bid' with _ | batch
        · rw [sendMsg_nobatch s m rid bid' hri h2 h3]
          exact Or.inl ⟨hwf, hmem, rfl⟩
        · have hres : batch.resolved = false :=
            hwf.2.1 (bid', batch) (alGet_some_mem h3)
          by_cases h5 : batch.expectedCount ≤
              (alSet batch.responses rid m).length
          · rw [sendMsg_complete s m rid bid' batch hri h2 h3 hres h5]
            rw [resolveBatch_eq s bid'
              { batch with responses := alSet batch.responses rid m }
              (show ({ batch with
                  responses := alSet batch.responses rid m }
                  : PendingBatch).resolved = false from hres)]
            by_cases he : bid' = bid
            · subst he
              right
              refine ⟨emitCount_single_eq bid' _, ?_, ?_⟩
              · exact not_mem_keys_filter_ne s.pendingBatches bid'
              · exact rtb_filter_clean s bid' batch hwf h3
            · left
              refine ⟨wf_after_resolve s bid' batch hwf h3, ?_, ?_⟩
              · exact mem_keys_filter_ne_of_ne hmem (fun h => he h.symm)
              · exact emitCount_single_ne bid' bid _ he
          · rw [sendMsg_incomplete s m rid bid' batch hri h2 h3 hres h5]
            left
            have hs : (s.pendingBatches.lookup bid').isSome = true := by
              unfold alGet at h3
              rw [h3]
              rfl
            have hkeys : batchIds ({ s with
                pendingBatches := alSet s.pendingBatches bid'
                  { batch with
                      responses := alSet batch.responses rid m } }) =
                batchIds s :=
              alSet_keys_of_isSome _ _ _ hs
            refine ⟨?_, hkeys.symm ▸ hmem, rfl⟩
            exact wf_after_update s bid' batch
              { batch with responses := alSet batch.responses rid m }
              hwf h3 hres rfl

/-- C8: every pending batch is resolved exactly once.  Along any
sequence of `send` / timeout events ending with transport close, a batch
registered in a well-formed state receives exactly one resolution — the
handler's responses via `send`, the `408` timeout error, or the
transport-closed rejection — the `resolved` flag guard making a second
resolution impossible; and once resolved, the batch entry and all its
request-id mappings are deleted and stay deleted. -/
theorem pending_resolved_exactly_once (s : TransportState) (ops : List Op)
    (bid : String) (hwf : wfState s) (hmem : bid ∈ batchIds s) :
    emitCount (runOps s (ops ++ [Op.close])).2 bid = 1
    ∧ bid ∉ batchIds (runOps s (ops ++ [Op.close])).1
    ∧ ∀ q ∈ (runOps s (ops ++ [Op.close])).1.requestToBatch,
        q.2 ≠ bid := by
  induction ops generalizing s with
  | nil =>
    rcases step_dichotomy s Op.close bid hwf hmem with
      ⟨_, hmem', _⟩ | ⟨h1, hcl⟩
    · exact absurd hmem' (List.not_mem_nil bid)
    · refine ⟨?_, hcl.1, hcl.2⟩
      show emitCount ((stepOp s Op.close).2
        ++ (runOps (stepOp s Op.close).1 []).2) bid = 1
      rw [emitCount_append, h1]
      rfl
  | cons op rest ih =>
    rcases step_dichotomy s op bid hwf hmem with
      ⟨hwf', hmem', h0⟩ | ⟨h1, hcl⟩
    · have h2 := ih (stepOp s op).1 hwf' hmem'
      refine ⟨?_, h2.2.1, h2.2.2⟩
      show emitCount ((stepOp s op).2
        ++ (runOps (stepOp s op).1 (rest ++ [Op.close])).2) bid = 1
      rw [emitCount_append, h0, h2.1]
    · have h2 := runOps_clean bid (rest ++ [Op.close]) (stepOp s op).1 hcl
      refine ⟨?_, h2.2.1, h2.2.2⟩
      show emitCount ((stepOp s op).2
        ++ (runOps (stepOp s op).1 (rest ++ [Op.close])).2) bid = 1
      rw [emitCount_append, h1, h2.1]

/-- A transport with one registered single-request batch, for the C8
witness. -/
def st8 : TransportState :=
  { defaultTransportState with
      pendingBatches := [("b8",
        { requestIds := [.num 9], responses := [], expectedCount := 1,
          resolved := false })],
      requestToBatch := [(.num 9, "b8")] }

/-- C8 witness: the exactly-once theorem applied to a concrete trace in
which the handler answers request 9 and the transport then closes. -/
theorem pending_resolved_exactly_once_witness :
    emitCount (runOps st8
      ([Op.send (.response (.num 9) Json.null)] ++ [Op.close])).2 "b8" = 1
    ∧ "b8" ∉ batchIds (runOps st8
      ([Op.send (.response (.num 9) Json.null)] ++ [Op.close])).1 := by
  have h := pending_resolved_exactly_once st8
    [Op.send (.response (.num 9) Json.null)] "b8"
    (by refine ⟨?_, ?_, ?_⟩ <;> decide) (by decide)
  exact ⟨h.1, h.2.1⟩
